import Mathlib

/-
  Verification development for the mythicplusbot score-synchronization
  pipeline.  The Go source is shallowly embedded: pure data is translated
  to Lean structures, the effectful calls (HTTP fetches, store writes,
  notification sends, sleeps) are modelled by oracle environments that
  supply each call's outcome, and every function additionally returns the
  trace of observable events it performed.  Go float64 score values are
  only ever copied and compared for exact equality in the embedded code,
  so they are modelled by exact rationals; time instants (Go time.Time)
  are modelled as integer seconds, with time.Time.After as strict portion
  of the order.
-/

namespace MPB

/-- Score values (Go float64); only copied and compared for equality, so
modelled as exact rationals. -/
abbrev Score := Rat

/-- db.Character from src/db/characters.go. -/
structure Character where
  id : Int
  name : String
  realm : String
  className : String
  overallScore : Score
  tankScore : Score
  dpsScore : Score
  healScore : Score
  dateUpdated : Int
  dateCreated : Int
  deriving DecidableEq, Repr

/-- The nested CurrentMythicRating struct of blizzard.MythicKeystoneProfile
(shape per the struct literal in the blizzard tests and its uses). -/
structure MythicRating where
  rating : Score
  deriving DecidableEq, Repr

/-- blizzard.MythicKeystoneProfile, restricted to the fields the embedded
code reads. -/
structure MythicKeystoneProfile where
  currentMythicRating : MythicRating
  deriving DecidableEq, Repr

/-- raiderio.Scores from src/raiderio/character.go. -/
structure Scores where
  all : Score
  dps : Score
  healer : Score
  tank : Score
  deriving DecidableEq, Repr

/-- raiderio.Season (segments omitted; the embedded code reads only
the scores). -/
structure Season where
  season : String
  scores : Scores
  deriving DecidableEq, Repr

/-- raiderio.Run, restricted to the fields the embedded code reads.
CompletedAt (Go time.Time) is an integer instant. -/
structure Run where
  dungeon : String
  mythicLevel : Int
  completedAt : Int
  numKeystoneUpgrades : Int
  score : Score
  url : String
  deriving DecidableEq, Repr

/-- raiderio.Character, restricted to the fields the embedded code reads. -/
structure RioCharacter where
  name : String
  realm : String
  mythicPlusScoresBySeason : List Season
  mythicPlusRecentRuns : List Run
  deriving DecidableEq, Repr

/-- The Go zero value raiderio.Scores{}. -/
def Scores.zero : Scores := ⟨0, 0, 0, 0⟩

/-- The Go zero value raiderio.Season{}. -/
def Season.zero : Season := ⟨"", Scores.zero⟩

/-- The Go zero value raiderio.Run{}. -/
def Run.zero : Run := ⟨"", 0, 0, 0, 0, ""⟩

/-- The observable events one pipeline pass can perform. -/
inductive Event where
  | blizzardFetch (realm name : String)
  | raiderioFetch (realm name : String)
  | storeUpdate (c : Character) (ok : Bool)
  | notify (channelID : String) (ok : Bool)
  | sleep
  deriving DecidableEq, Repr

def Event.isSleep : Event → Bool
  | .sleep => true
  | _ => false

def Event.isStoreUpdate : Event → Bool
  | .storeUpdate _ _ => true
  | _ => false

def Event.isNotify : Event → Bool
  | .notify _ _ => true
  | _ => false

def Event.isRaiderioFetch : Event → Bool
  | .raiderioFetch _ _ => true
  | _ => false

def Event.isBlizzardFetch : Event → Bool
  | .blizzardFetch _ _ => true
  | _ => false

/-- Whether an Except value is a success. -/
def exceptOk {ε α : Type} : Except ε α → Bool
  | .ok _ => true
  | .error _ => false

/-- Oracle outcomes of the four effectful calls one character's update
can perform (Blizzard fetch, Raider.io fetch, store update,
notification send). -/
structure CharEnv where
  blizzard : Except String MythicKeystoneProfile
  raiderio : Except String RioCharacter
  updateResult : Except String Unit
  sendResult : Except String Unit

/-- The season selection in updateCharacter: the Go zero Season, replaced
by the first element of MythicPlusScoresBySeason when that list is
non-empty. -/
def currentSeason (rCharacter : RioCharacter) : Season :=
  match rCharacter.mythicPlusScoresBySeason with
  | [] => Season.zero
  | s :: _ => s

/-- The merge step of updateCharacter: overwrite the four score fields of
the (by-value) character record with the Blizzard rating and the selected
season's role scores. -/
def mergeScores (character : Character) (profile : MythicKeystoneProfile)
    (season : Season) : Character :=
  { character with
    overallScore := profile.currentMythicRating.rating
    tankScore := season.scores.tank
    healScore := season.scores.healer
    dpsScore := season.scores.dps }

/-- Service.updateCharacter from src/updater/updater.go: fetch the
Blizzard rating, return nil when it equals the stored overall score,
otherwise fetch the Raider.io profile, merge scores (current season =
first element, zero season when absent), persist, then notify.  Returns
the Go error result together with the trace of performed calls. -/
def updateCharacter (env : CharEnv) (discordChannelID : String) (character : Character) :
    Except String Unit × List Event :=
  match env.blizzard with
  | .error e =>
      (.error ("failed to get mythic profile for " ++ character.name ++ "-" ++
          character.realm ++ ": " ++ e),
        [.blizzardFetch character.realm character.name])
  | .ok profile =>
      if profile.currentMythicRating.rating = character.overallScore then
        (.ok (), [.blizzardFetch character.realm character.name])
      else
        match env.raiderio with
        | .error e =>
            (.error ("failed to get character " ++ character.name ++ "-" ++
                character.realm ++ ": " ++ e),
              [.blizzardFetch character.realm character.name,
               .raiderioFetch character.realm character.name])
        | .ok rCharacter =>
            let season := currentSeason rCharacter
            let character' := mergeScores character profile season
            match env.updateResult with
            | .error e =>
                (.error ("failed to update character score: " ++ e),
                  [.blizzardFetch character.realm character.name,
                   .raiderioFetch character.realm character.name,
                   .storeUpdate character' false])
            | .ok _ =>
                match env.sendResult with
                | .error e =>
                    (.error ("failed to send message: " ++ e),
                      [.blizzardFetch character.realm character.name,
                       .raiderioFetch character.realm character.name,
                       .storeUpdate character' true,
                       .notify discordChannelID false])
                | .ok _ =>
                    (.ok (),
                      [.blizzardFetch character.realm character.name,
                       .raiderioFetch character.realm character.name,
                       .storeUpdate character' true,
                       .notify discordChannelID true])

/-- Oracle outcomes for one full pass: the ListCharacters result, and a
per-character environment keyed by the character record. -/
structure PassEnv where
  listResult : Except String (List Character)
  charEnv : Character → CharEnv

/-- One iteration of the loop of Service.Update: on a character error log
and continue (no sleep), on success sleep cooldownTime before the next
character. -/
def updateStep (env : PassEnv) (discordChannelID : String)
    (acc : List Event) (character : Character) : List Event :=
  let r := updateCharacter (env.charEnv character) discordChannelID character
  match r.1 with
  | .error _ => acc ++ r.2
  | .ok _ => acc ++ r.2 ++ [Event.sleep]

/-- Service.Update from src/updater/updater.go: list all characters (a
listing failure is returned wrapped and aborts the pass), then process
each character in order via updateStep, always returning success. -/
def Update (env : PassEnv) (discordChannelID : String) :
    Except String Unit × List Event :=
  match env.listResult with
  | .error e => (.error ("failed to list characters: " ++ e), [])
  | .ok characters =>
      (.ok (), characters.foldl (updateStep env discordChannelID) [])

/-- Relational semantics of updateCharacterQuery from src/db/characters.go
(UPDATE characters SET score, tank_score, dps_score, heal_score WHERE
name AND realm) applied to a table of rows. -/
def applyUpdateQuery (table : List Character) (c : Character) : List Character :=
  table.map fun row =>
    if row.name = c.name ∧ row.realm = c.realm then
      { row with
        overallScore := c.overallScore
        tankScore := c.tankScore
        dpsScore := c.dpsScore
        healScore := c.healScore }
    else row

/-- The store contents after a trace: every successful storeUpdate event
applies the update statement to the table. -/
def persistAfter (table : List Character) (trace : List Event) : List Character :=
  trace.foldl (fun tbl e =>
    match e with
    | .storeUpdate c true => applyUpdateQuery tbl c
    | _ => tbl) table

/-- The auth response body from src/blizzard/api.go. -/
structure auth where
  accessToken : String
  tokenType : String
  expiresIn : Int
  scope : String
  deriving DecidableEq, Repr

/-- blizzard.Client credential state (src/blizzard/api.go); the injected
HTTP client and time source become explicit arguments, the URLs carry no
state relevant here. -/
structure Client where
  id : String
  secret : String
  bearer : String
  expires : Int
  deriving DecidableEq, Repr

/-- expiryBuffer = time.Minute * 5, in seconds. -/
def expiryBuffer : Int := 300

/-- Outcome of one httpClient.Do call: a transport error, or a response
with a status code and the result of reading+decoding its body. -/
inductive HTTPOutcome (α : Type) where
  | transportError (e : String)
  | response (status : Nat) (body : Except String α)

/-- The network calls the Blizzard client can perform. -/
inductive BlizEvent where
  | tokenExchange
  | profileRequest (realm name : String)
  deriving DecidableEq, Repr

/-- Client.getBearerToken from src/blizzard/api.go: one POST to the OAuth
endpoint; on transport error, non-200 status, or body decode failure the
credential state is untouched; on success the bearer is replaced and the
expiry becomes now + expiresIn seconds.  Returns the error result, the
resulting credential state and the trace of network calls. -/
def getBearerToken (now : Int) (c : Client) (outcome : HTTPOutcome auth) :
    Except String Unit × Client × List BlizEvent :=
  match outcome with
  | .transportError e =>
      (.error ("failed to make request: " ++ e), c, [.tokenExchange])
  | .response status body =>
      if status ≠ 200 then
        (.error ("failed to get bearer token: " ++ toString status), c, [.tokenExchange])
      else
        match body with
        | .error e => (.error ("failed to parse response: " ++ e), c, [.tokenExchange])
        | .ok authResp =>
            (.ok (),
              { c with bearer := authResp.accessToken,
                       expires := now + authResp.expiresIn },
              [.tokenExchange])

/-- Client.checkClient from src/blizzard/api.go: fail when id or secret is
empty; refresh when the bearer is empty or now + expiryBuffer is strictly
after the recorded expiry (time.Time.After); otherwise do nothing. -/
def checkClient (now : Int) (c : Client) (outcome : HTTPOutcome auth) :
    Except String Unit × Client × List BlizEvent :=
  if c.id = "" ∨ c.secret = "" then
    (.error "client is not initialised", c, [])
  else if c.bearer = "" ∨ now + expiryBuffer > c.expires then
    getBearerToken now c outcome
  else
    (.ok (), c, [])

/-- Client.GetMythicKeystoneProfile from src/blizzard/api.go: checkClient
first (propagating its failure, with no profile request); then lower-case
realm and character and issue one authenticated GET. -/
def GetMythicKeystoneProfile (now : Int) (c : Client) (tokenOutcome : HTTPOutcome auth)
    (profileOutcome : HTTPOutcome MythicKeystoneProfile) (realm character : String) :
    Except String MythicKeystoneProfile × Client × List BlizEvent :=
  match checkClient now c tokenOutcome with
  | (.error e, c', tr) => (.error e, c', tr)
  | (.ok _, c', tr) =>
      let realm2 := realm.toLower
      let character2 := character.toLower
      let tr2 := tr ++ [BlizEvent.profileRequest realm2 character2]
      match profileOutcome with
      | .transportError e => (.error ("failed to make request: " ++ e), c', tr2)
      | .response status body =>
          if status ≠ 200 then
            (.error ("failed to get mythic keystone profile: " ++ toString status), c', tr2)
          else
            match body with
            | .error e => (.error e, c', tr2)
            | .ok profile => (.ok profile, c', tr2)

/-- Number of inter-character pause (sleep) invocations in a trace. -/
def sleepCount (trace : List Event) : Nat :=
  trace.countP fun e => e.isSleep

/-- The (realm, name) arguments of the Blizzard fetches of a trace, in
order. -/
def blizzardFetchesOf (trace : List Event) : List (String × String) :=
  trace.filterMap fun e =>
    match e with
    | .blizzardFetch realm name => some (realm, name)
    | _ => none

/-- The loop body of getLatestRun: replace the candidate only when the
run's completion instant is strictly after the candidate's
(r.CompletedAt.After(latestRun.CompletedAt)), so ties keep the
first-seen run. -/
def laterRun (latestRun r : Run) : Run :=
  if latestRun.completedAt < r.completedAt then r else latestRun

/-- getLatestRun from src/discord/discord.go: start from the first recent
run and scan the whole array with laterRun; the zero Run when there are
no runs. -/
def getLatestRun (rc : RioCharacter) : Run :=
  match rc.mythicPlusRecentRuns with
  | [] => Run.zero
  | r0 :: rest => (r0 :: rest).foldl laterRun r0

/-
  Concrete sample data, used to evaluate the pipeline on explicit inputs.
-/

/-- A tracked character whose stored overall score is 7. -/
def charUnchanged : Character := ⟨1, "alpha", "realm1", "mage", 7, 0, 0, 0, 0, 0⟩

/-- A per-character environment in which the Blizzard rating equals the
stored score 7 (the remaining oracle fields are never reached). -/
def envUnchanged : CharEnv := ⟨.ok ⟨⟨7⟩⟩, .error "unused", .ok (), .ok ()⟩

/-- A single-character pass in which the character is unchanged. -/
def passC1 : PassEnv := ⟨.ok [charUnchanged], fun _ => envUnchanged⟩

/-- A sample Raider.io profile with one season of role scores. -/
def rcSample : RioCharacter :=
  ⟨"beta", "realm2", [⟨"season-1", ⟨9, 3, 4, 5⟩⟩], []⟩

/-- A tracked character whose stored overall score is 1. -/
def charChanged : Character := ⟨2, "beta", "realm2", "rogue", 1, 0, 0, 0, 11, 12⟩

/-- An environment in which the rating changed to 2, the store update
succeeds and the notification send fails. -/
def envSendFail : CharEnv := ⟨.ok ⟨⟨2⟩⟩, .ok rcSample, .ok (), .error "discord error"⟩

/-- A single-character pass hitting a notification send failure after a
successful store update. -/
def passC2 : PassEnv := ⟨.ok [charChanged], fun _ => envSendFail⟩

/-- The merged record of that pass. -/
def mergedC2 : Character := mergeScores charChanged ⟨⟨2⟩⟩ (currentSeason rcSample)

/-- Season-rollover character: stored overall score 1234.5. -/
def charRoll : Character := ⟨7, "roll", "realm3", "druid", 1234.5, 1, 2, 3, 4, 5⟩

/-- The Blizzard profile after a season reset: rating 0. -/
def profileZero : MythicKeystoneProfile := ⟨⟨0⟩⟩

/-- Environment for the season-rollover pass: rating 0, Raider.io and the
store both succeed. -/
def envRoll : CharEnv := ⟨.ok profileZero, .ok rcSample, .ok (), .ok ()⟩

/-- A credential state with both credentials set, a non-empty bearer and
expiry at instant 3600 (obtained at instant 0 with expires_in = 3600). -/
def clientFresh : Client := ⟨"id", "secret", "tok", 3600⟩

/-- A successful token-exchange outcome. -/
def authOutcome : HTTPOutcome auth :=
  .response 200 (.ok ⟨"newtok", "Bearer", 3600, "wow.profile"⟩)

/-- A pass whose character listing fails with a database error. -/
def passC6 : PassEnv := ⟨.error "database error", fun _ => envUnchanged⟩

/-- An environment whose Blizzard fetch fails. -/
def envBlizzFail : CharEnv := ⟨.error "API error", .error "unused", .ok (), .ok ()⟩

/-- A two-character pass: charChanged updates fully, charUnchanged's
Blizzard fetch fails. -/
def passC7 : PassEnv :=
  ⟨.ok [charChanged, charUnchanged],
   fun c => if c.name = "beta" then envSendFail else envBlizzFail⟩

/-- Three recent runs whose completion instants are, in input order,
T-2h, T, T-1h for T = 10000. -/
def runEarly : Run := ⟨"AK", 10, 2800, 1, 145, "u1"⟩

def runLatest : Run := ⟨"MISTS", 12, 10000, 2, 162, "u2"⟩

def runMiddle : Run := ⟨"SIEGE", 11, 6400, 0, 150, "u3"⟩

/-- A Raider.io profile whose recent runs are in non-chronological
order. -/
def rcRuns : RioCharacter :=
  ⟨"gamma", "realm4", [], [runEarly, runLatest, runMiddle]⟩

/-- The merged record of the envRoll pass over charRoll. -/
def mergedRoll : Character := mergeScores charRoll profileZero (currentSeason rcSample)

/-- A second, unrelated table row (different name and realm). -/
def rowOther : Character := ⟨3, "delta", "realm9", "priest", 42, 1, 1, 1, 8, 9⟩

/-
  Theorems.
-/

/-- Claim C6: if listing the tracked characters fails, the pass returns
immediately with an error wrapping "failed to list characters", and the
trace is empty: no provider fetch, no store update, no notification and
no pause occur. -/
theorem c6_listing_failure_aborts_pass (env : PassEnv) (discordChannelID e : String)
    (h : env.listResult = .error e) :
    Update env discordChannelID =
      (.error ("failed to list characters: " ++ e), []) := by
  simp [Update, h]

/-- Witness for C6: a concrete pass whose listing fails with "database
error" returns the wrapped error and performs nothing. -/
theorem c6_witness :
    Update passC6 "chan" = (.error "failed to list characters: database error", []) :=
  c6_listing_failure_aborts_pass passC6 "chan" "database error" rfl

/-- Claim C9: with an empty client id or secret, fetching the profile
fails with the "client is not initialised" error, leaves the credential
state unchanged and performs no network call at all. -/
theorem c9_unconfigured_no_network (now : Int) (c : Client)
    (tokenOutcome : HTTPOutcome auth) (profileOutcome : HTTPOutcome MythicKeystoneProfile)
    (realm character : String) (h : c.id = "" ∨ c.secret = "") :
    GetMythicKeystoneProfile now c tokenOutcome profileOutcome realm character =
      (.error "client is not initialised", c, []) := by
  have hc : checkClient now c tokenOutcome = (.error "client is not initialised", c, []) := by
    unfold checkClient
    rw [if_pos h]
  unfold GetMythicKeystoneProfile
  rw [hc]

/-- Witness for C9 at a concrete unconfigured client. -/
theorem c9_witness :
    GetMythicKeystoneProfile 0 (Client.mk "" "secret" "" 0) (.transportError "t")
        (.transportError "p") "Realm" "Name" =
      (.error "client is not initialised", Client.mk "" "secret" "" 0, []) :=
  c9_unconfigured_no_network 0 (Client.mk "" "secret" "" 0) (.transportError "t")
    (.transportError "p") "Realm" "Name" (Or.inl rfl)

/-- Claim C5: a token refresh is atomic: on transport error, non-200
status, or body-decode failure it returns an error and leaves the
credential state completely unchanged; on success the token is replaced
wholesale and the new expiry is now + expires_in. -/
theorem c5_refresh_atomicity (now : Int) (c : Client) (outcome : HTTPOutcome auth) :
    (exceptOk (getBearerToken now c outcome).1 = false →
      (getBearerToken now c outcome).2.1 = c) ∧
    (∀ a, outcome = .response 200 (.ok a) →
      getBearerToken now c outcome =
        (.ok (), { c with bearer := a.accessToken, expires := now + a.expiresIn },
          [.tokenExchange])) ∧
    (exceptOk (getBearerToken now c outcome).1 = true ↔
      ∃ a, outcome = .response 200 (.ok a)) := by
  rcases outcome with e | ⟨status, body⟩
  · simp [getBearerToken, exceptOk]
  · by_cases h : status = 200
    · subst h
      rcases body with e | a
      · simp [getBearerToken, exceptOk]
      · simp [getBearerToken, exceptOk]
    · rcases body with e | a <;> simp [getBearerToken, exceptOk, h]

/-- Witness for C5: a concrete 500-status refresh leaves the state
unchanged, a concrete 200 refresh installs the new token and expiry. -/
theorem c5_witness :
    (getBearerToken 0 clientFresh (.response 500 (.error "boom"))).2.1 = clientFresh ∧
    getBearerToken 7 clientFresh authOutcome =
      (.ok (), { clientFresh with bearer := "newtok", expires := 7 + 3600 },
        [.tokenExchange]) :=
  ⟨(c5_refresh_atomicity 0 clientFresh (.response 500 (.error "boom"))).1 rfl,
   (c5_refresh_atomicity 7 clientFresh authOutcome).2.1
     ⟨"newtok", "Bearer", 3600, "wow.profile"⟩ rfl⟩

/-- Every refresh attempt performs exactly one token-exchange network
call, whatever its outcome. -/
theorem getBearerToken_trace (now : Int) (c : Client) (outcome : HTTPOutcome auth) :
    (getBearerToken now c outcome).2.2 = [BlizEvent.tokenExchange] := by
  rcases outcome with e | ⟨status, body⟩
  · rfl
  · by_cases h : status = 200
    · subst h
      rcases body with e | a <;> rfl
    · simp [getBearerToken, h]

/-- Counterexample to C4 as stated: at exactly T+3300s (now + 5 minutes
equal to the recorded expiry, hence "at or after" it) the code performs
no token refresh, because time.Time.After is strict. -/
theorem c4_counterexample :
    ¬ ((clientFresh.bearer = "" ∨ (3300 : Int) + expiryBuffer ≥ clientFresh.expires) →
        (checkClient 3300 clientFresh authOutcome).2.2 = [BlizEvent.tokenExchange]) := by
  intro h
  have h2 := h (Or.inr (by decide))
  have h3 : (checkClient 3300 clientFresh authOutcome).2.2 = [] := rfl
  rw [h3] at h2
  exact List.noConfusion h2

/-- Claim C4 (amended): for a configured client, the credential check
refreshes (exactly one token-exchange call) if and only if the stored
token is empty or now + 5 minutes is strictly after the recorded expiry;
otherwise the token is reused completely unchanged with no network
call. -/
theorem c4_refresh_strictly_within_buffer (now : Int) (c : Client)
    (outcome : HTTPOutcome auth) (hid : c.id ≠ "") (hsecret : c.secret ≠ "") :
    ((checkClient now c outcome).2.2 =
      if c.bearer = "" ∨ now + expiryBuffer > c.expires then [BlizEvent.tokenExchange]
      else []) ∧
    (¬(c.bearer = "" ∨ now + expiryBuffer > c.expires) →
      checkClient now c outcome = (.ok (), c, [])) := by
  have hne : ¬(c.id = "" ∨ c.secret = "") := by
    rintro (h | h)
    · exact hid h
    · exact hsecret h
  constructor
  · unfold checkClient
    rw [if_neg hne]
    by_cases h : c.bearer = "" ∨ now + expiryBuffer > c.expires
    · rw [if_pos h, if_pos h, getBearerToken_trace]
    · rw [if_neg h, if_neg h]
  · intro h
    unfold checkClient
    rw [if_neg hne, if_neg h]

/-- Witness for C4 (amended): a token with expiry 3600 is reused
unchanged at instants 3000 and 3300, and is refreshed (one exchange)
at 3301. -/
theorem c4_witness :
    checkClient 3000 clientFresh authOutcome = (.ok (), clientFresh, []) ∧
    checkClient 3300 clientFresh authOutcome = (.ok (), clientFresh, []) ∧
    (checkClient 3301 clientFresh authOutcome).2.2 = [BlizEvent.tokenExchange] := by
  refine ⟨?_, ?_, ?_⟩
  · exact (c4_refresh_strictly_within_buffer 3000 clientFresh authOutcome
      (by decide) (by decide)).2 (by decide)
  · exact (c4_refresh_strictly_within_buffer 3300 clientFresh authOutcome
      (by decide) (by decide)).2 (by decide)
  · have h := (c4_refresh_strictly_within_buffer 3301 clientFresh authOutcome
      (by decide) (by decide)).1
    rw [h]
    decide

/-- Folding laterRun over a list yields an element (or the accumulator)
whose completion instant dominates every element and the accumulator,
and which is the first position at which that instant is attained. -/
theorem foldl_laterRun_spec (l : List Run) : ∀ acc : Run,
    (∀ r ∈ l, r.completedAt ≤ (l.foldl laterRun acc).completedAt) ∧
    acc.completedAt ≤ (l.foldl laterRun acc).completedAt ∧
    (l.foldl laterRun acc = acc ∨
      ∃ l1 l2, l = l1 ++ (l.foldl laterRun acc) :: l2 ∧
        acc.completedAt < (l.foldl laterRun acc).completedAt ∧
        ∀ r ∈ l1, r.completedAt < (l.foldl laterRun acc).completedAt) := by
  induction l with
  | nil =>
      intro acc
      exact ⟨by simp, le_refl _, Or.inl rfl⟩
  | cons x t ih =>
      intro acc
      rw [List.foldl_cons]
      by_cases hx : acc.completedAt < x.completedAt
      · have hfx : laterRun acc x = x := by simp [laterRun, hx]
        rw [hfx]
        obtain ⟨hmax, hle, hcase⟩ := ih x
        refine ⟨?_, le_of_lt (lt_of_lt_of_le hx hle), ?_⟩
        · intro r hr
          rcases List.mem_cons.mp hr with h | h
          · exact h ▸ hle
          · exact hmax r h
        · rcases hcase with heq | ⟨l1, l2, hsplit, hlt, hall⟩
          · right
            refine ⟨[], t, ?_, ?_, by simp⟩
            · rw [heq]; rfl
            · rw [heq]; exact hx
          · right
            refine ⟨x :: l1, l2, ?_, lt_trans hx hlt, ?_⟩
            · rw [List.cons_append, ← hsplit]
            · intro r hr
              rcases List.mem_cons.mp hr with h | h
              · exact h ▸ hlt
              · exact hall r h
      · have hfx : laterRun acc x = acc := by simp [laterRun, hx]
        rw [hfx]
        obtain ⟨hmax, hle, hcase⟩ := ih acc
        refine ⟨?_, hle, ?_⟩
        · intro r hr
          rcases List.mem_cons.mp hr with h | h
          · exact h ▸ le_trans (le_of_not_lt hx) hle
          · exact hmax r h
        · rcases hcase with heq | ⟨l1, l2, hsplit, hlt, hall⟩
          · exact Or.inl heq
          · right
            refine ⟨x :: l1, l2, ?_, hlt, ?_⟩
            · rw [List.cons_append, ← hsplit]
            · intro r hr
              rcases List.mem_cons.mp hr with h | h
              · exact h ▸ lt_of_le_of_lt (le_of_not_lt hx) hlt
              · exact hall r h

/-- Claim C8: for a non-empty run sequence, the selected latest run is a
run of the sequence whose completion instant is the maximum over all
runs, and it is the first-seen maximum: every run strictly before it in
input order has a strictly smaller completion instant. -/
theorem c8_latest_run_first_maximum (rc : RioCharacter) (r0 : Run) (rest : List Run)
    (h : rc.mythicPlusRecentRuns = r0 :: rest) :
    getLatestRun rc ∈ rc.mythicPlusRecentRuns ∧
    (∀ r ∈ rc.mythicPlusRecentRuns, r.completedAt ≤ (getLatestRun rc).completedAt) ∧
    ∃ l1 l2, rc.mythicPlusRecentRuns = l1 ++ getLatestRun rc :: l2 ∧
      ∀ r ∈ l1, r.completedAt < (getLatestRun rc).completedAt := by
  have hdef : getLatestRun rc = (r0 :: rest).foldl laterRun r0 := by
    unfold getLatestRun
    rw [h]
  obtain ⟨hmax, hle, hcase⟩ := foldl_laterRun_spec (r0 :: rest) r0
  rw [hdef, h]
  set R := (r0 :: rest).foldl laterRun r0 with hR
  rcases hcase with heq | ⟨l1, l2, hsplit, _, hall⟩
  · refine ⟨by rw [heq]; exact List.mem_cons_self r0 rest, hmax, [], rest, ?_, by simp⟩
    rw [heq]; rfl
  · refine ⟨?_, hmax, l1, l2, hsplit, hall⟩
    rw [hsplit]
    exact List.mem_append_right l1 (List.mem_cons_self _ l2)

/-- Witness for C8: with completion instants in input order
[2800, 10000, 6400] (T-2h, T, T-1h for T = 10000), the selected run is
the one at T and dominates all runs. -/
theorem c8_witness :
    getLatestRun rcRuns = runLatest ∧
    ∀ r ∈ rcRuns.mythicPlusRecentRuns, r.completedAt ≤ (getLatestRun rcRuns).completedAt :=
  ⟨rfl, (c8_latest_run_first_maximum rcRuns runEarly [runLatest, runMiddle] rfl).2.1⟩

/-- When the fetched rating equals the stored overall score,
updateCharacter returns success after only the Blizzard fetch. -/
theorem updateCharacter_unchanged (env : CharEnv) (discordChannelID : String)
    (c : Character) (p : MythicKeystoneProfile) (hb : env.blizzard = .ok p)
    (heq : p.currentMythicRating.rating = c.overallScore) :
    updateCharacter env discordChannelID c =
      (.ok (), [Event.blizzardFetch c.realm c.name]) := by
  simp [updateCharacter, hb, heq]

theorem sleepCount_append (l1 l2 : List Event) :
    sleepCount (l1 ++ l2) = sleepCount l1 + sleepCount l2 := by
  simp [sleepCount, List.countP_append]

/-- Over a block of characters that are all unchanged, the pass loop adds
exactly one sleep per character. -/
theorem unchangedPass_foldl (penv : PassEnv) (discordChannelID : String) :
    ∀ characters : List Character,
      (∀ c ∈ characters, ∃ p, (penv.charEnv c).blizzard = .ok p ∧
          p.currentMythicRating.rating = c.overallScore) →
      ∀ acc : List Event,
        sleepCount (characters.foldl (updateStep penv discordChannelID) acc) =
          sleepCount acc + characters.length := by
  intro characters
  induction characters with
  | nil => intro _ acc; simp
  | cons c t ih =>
      intro hall acc
      obtain ⟨p, hb, heq⟩ := hall c (List.mem_cons_self c t)
      have huc := updateCharacter_unchanged (penv.charEnv c) discordChannelID c p hb heq
      rw [List.foldl_cons, ih (fun c' hc' => hall c' (List.mem_cons_of_mem _ hc'))]
      simp [updateStep, huc, sleepCount_append, sleepCount, Event.isSleep]
      omega

/-- Counterexample to C1 as stated: a concrete all-unchanged one-character
set performs one pause invocation, not zero — the no-change character is
treated as a success, so the loop still sleeps after it. -/
theorem c1_counterexample :
    passC1.listResult = .ok [charUnchanged] ∧
    (passC1.charEnv charUnchanged).blizzard = .ok ⟨⟨7⟩⟩ ∧
    (7 : Score) = charUnchanged.overallScore ∧
    sleepCount (Update passC1 "chan").2 = 1 ∧
    sleepCount (Update passC1 "chan").2 ≠ 0 := by
  refine ⟨rfl, rfl, rfl, ?_, ?_⟩ <;> decide

/-- Claim C1 (amended): a character whose fetched rating equals its
stored overall score triggers no Provider B fetch, no store update and
no notification — its trace is exactly the one Blizzard fetch and it is
treated as success — but the inter-character pause does occur for it, so
an all-unchanged character set performs exactly one pause per character
(not zero). -/
theorem c1_unchanged_no_calls_but_pause (discordChannelID : String) :
    (∀ (env : CharEnv) (c : Character) (p : MythicKeystoneProfile),
        env.blizzard = .ok p →
        p.currentMythicRating.rating = c.overallScore →
        updateCharacter env discordChannelID c =
          (.ok (), [Event.blizzardFetch c.realm c.name])) ∧
    (∀ (penv : PassEnv) (characters : List Character),
        penv.listResult = .ok characters →
        (∀ c ∈ characters, ∃ p, (penv.charEnv c).blizzard = .ok p ∧
            p.currentMythicRating.rating = c.overallScore) →
        sleepCount (Update penv discordChannelID).2 = characters.length) := by
  constructor
  · intro env c p hb heq
    exact updateCharacter_unchanged env discordChannelID c p hb heq
  · intro penv characters hl hall
    have h := unchangedPass_foldl penv discordChannelID characters hall []
    simp [Update, hl]
    simpa [sleepCount] using h

/-- Witness for C1 (amended) at the concrete all-unchanged pass. -/
theorem c1_witness :
    updateCharacter envUnchanged "chan" charUnchanged =
      (.ok (), [Event.blizzardFetch "realm1" "alpha"]) ∧
    sleepCount (Update passC1 "chan").2 = [charUnchanged].length := by
  constructor
  · exact (c1_unchanged_no_calls_but_pause "chan").1 envUnchanged charUnchanged ⟨⟨7⟩⟩ rfl rfl
  · exact (c1_unchanged_no_calls_but_pause "chan").2 passC1 [charUnchanged] rfl
      (by
        intro c hc
        simp at hc
        subst hc
        exact ⟨⟨⟨7⟩⟩, rfl, rfl⟩)

/-- Counterexample to C2 as stated: in a concrete single-character pass
whose store update succeeds and whose notification send fails, the
update is persisted (a successful store-update event is in the trace)
yet zero pause invocations occur — the send failure propagates as the
character's error and the loop skips the sleep. -/
theorem c2_counterexample :
    passC2.listResult = .ok [charChanged] ∧
    (passC2.charEnv charChanged).updateResult = .ok () ∧
    (passC2.charEnv charChanged).sendResult = .error "discord error" ∧
    Event.storeUpdate mergedC2 true ∈ (Update passC2 "chan").2 ∧
    sleepCount (Update passC2 "chan").2 = 0 ∧
    sleepCount (Update passC2 "chan").2 ≠ 1 := by
  refine ⟨rfl, rfl, rfl, ?_, ?_, ?_⟩ <;> decide

/-- Claim C2 (amended): when a character's store update succeeds and the
subsequent notification send fails, the persisted update is not rolled
back — the final store state is exactly the one the update wrote — but
the inter-character pause is skipped: the send failure makes the
character count as failed, so no pause occurs for it. -/
theorem c2_send_failure_durable_but_no_pause (penv : PassEnv)
    (discordChannelID e : String) (c : Character) (p : MythicKeystoneProfile)
    (rc : RioCharacter) (init : List Character)
    (hl : penv.listResult = .ok [c])
    (hb : (penv.charEnv c).blizzard = .ok p)
    (hne : p.currentMythicRating.rating ≠ c.overallScore)
    (hr : (penv.charEnv c).raiderio = .ok rc)
    (hu : (penv.charEnv c).updateResult = .ok ())
    (hs : (penv.charEnv c).sendResult = .error e) :
    (Update penv discordChannelID).2 =
      [Event.blizzardFetch c.realm c.name, Event.raiderioFetch c.realm c.name,
       Event.storeUpdate (mergeScores c p (currentSeason rc)) true,
       Event.notify discordChannelID false] ∧
    persistAfter init (Update penv discordChannelID).2 =
      applyUpdateQuery init (mergeScores c p (currentSeason rc)) ∧
    sleepCount (Update penv discordChannelID).2 = 0 := by
  have huc : updateCharacter (penv.charEnv c) discordChannelID c =
      (.error ("failed to send message: " ++ e),
        [Event.blizzardFetch c.realm c.name, Event.raiderioFetch c.realm c.name,
         Event.storeUpdate (mergeScores c p (currentSeason rc)) true,
         Event.notify discordChannelID false]) := by
    simp [updateCharacter, hb, hne, hr, hu, hs]
  have hup : (Update penv discordChannelID).2 =
      [Event.blizzardFetch c.realm c.name, Event.raiderioFetch c.realm c.name,
       Event.storeUpdate (mergeScores c p (currentSeason rc)) true,
       Event.notify discordChannelID false] := by
    simp [Update, hl, updateStep, huc]
  rw [hup]
  exact ⟨rfl, by simp [persistAfter], rfl⟩

/-- Witness for C2 (amended) at the concrete send-failure pass. -/
theorem c2_witness :
    (Update passC2 "chan").2 =
      [Event.blizzardFetch "realm2" "beta", Event.raiderioFetch "realm2" "beta",
       Event.storeUpdate mergedC2 true, Event.notify "chan" false] ∧
    persistAfter [charChanged] (Update passC2 "chan").2 =
      applyUpdateQuery [charChanged] mergedC2 ∧
    sleepCount (Update passC2 "chan").2 = 0 :=
  c2_send_failure_durable_but_no_pause passC2 "chan" "discord error" charChanged
    ⟨⟨2⟩⟩ rcSample [charChanged] rfl rfl (by decide) rfl rfl rfl

/-- Claim C3: for a character whose fetched rating differs from its
stored overall score (season resets to 0 included) and whose Provider B
profile was fetched, exactly one store-update call occurs, its record's
overall score is the Provider A rating and its tank/heal/dps scores are
the first season's scores (all zero when the profile has no seasons);
when the update succeeds the persisted row is exactly that record. -/
theorem c3_changed_rating_single_update (env : CharEnv) (discordChannelID : String)
    (c : Character) (p : MythicKeystoneProfile) (rc : RioCharacter)
    (hb : env.blizzard = .ok p)
    (hne : p.currentMythicRating.rating ≠ c.overallScore)
    (hr : env.raiderio = .ok rc) :
    ((updateCharacter env discordChannelID c).2.filter Event.isStoreUpdate =
      [Event.storeUpdate (mergeScores c p (currentSeason rc))
        (exceptOk env.updateResult)]) ∧
    (mergeScores c p (currentSeason rc)).overallScore = p.currentMythicRating.rating ∧
    (rc.mythicPlusScoresBySeason = [] →
      (mergeScores c p (currentSeason rc)).tankScore = 0 ∧
      (mergeScores c p (currentSeason rc)).healScore = 0 ∧
      (mergeScores c p (currentSeason rc)).dpsScore = 0) ∧
    (∀ s rest, rc.mythicPlusScoresBySeason = s :: rest →
      (mergeScores c p (currentSeason rc)).tankScore = s.scores.tank ∧
      (mergeScores c p (currentSeason rc)).healScore = s.scores.healer ∧
      (mergeScores c p (currentSeason rc)).dpsScore = s.scores.dps) ∧
    (env.updateResult = .ok () →
      persistAfter [c] (updateCharacter env discordChannelID c).2 =
        [mergeScores c p (currentSeason rc)]) := by
  refine ⟨?_, rfl, ?_, ?_, ?_⟩
  · rcases env with ⟨bz, rio, upd, snd⟩
    simp only at hb hr
    subst hb; subst hr
    rcases upd with e | u
    · simp [updateCharacter, hne, Event.isStoreUpdate, List.filter, exceptOk]
    · rcases snd with e | s <;>
        simp [updateCharacter, hne, Event.isStoreUpdate, List.filter, exceptOk]
  · intro hs
    simp [mergeScores, currentSeason, hs, Season.zero, Scores.zero]
  · intro s rest hs
    simp [mergeScores, currentSeason, hs]
  · intro hu
    rcases env with ⟨bz, rio, upd, snd⟩
    simp only at hb hr hu
    subst hb; subst hr; subst hu
    have hkey : c.name = (mergeScores c p (currentSeason rc)).name ∧
        c.realm = (mergeScores c p (currentSeason rc)).realm := ⟨rfl, rfl⟩
    rcases snd with e | s <;>
      simp [updateCharacter, hne, persistAfter, applyUpdateQuery, mergeScores]

/-- Witness for C3: the season-rollover pass (stored 1234.5, fetched 0)
fires exactly one store update whose record carries rating 0 and the
current season's role scores, and that record is what gets persisted. -/
theorem c3_witness :
    ((updateCharacter envRoll "chan" charRoll).2.filter Event.isStoreUpdate =
      [Event.storeUpdate mergedRoll true]) ∧
    persistAfter [charRoll] (updateCharacter envRoll "chan" charRoll).2 = [mergedRoll] ∧
    mergedRoll.overallScore = 0 ∧ charRoll.overallScore = 1234.5 := by
  have h := c3_changed_rating_single_update envRoll "chan" charRoll profileZero rcSample
    rfl (by norm_num [profileZero, charRoll]) rfl
  exact ⟨h.1, h.2.2.2.2 rfl, rfl, rfl⟩

theorem blizzardFetchesOf_append (l1 l2 : List Event) :
    blizzardFetchesOf (l1 ++ l2) = blizzardFetchesOf l1 ++ blizzardFetchesOf l2 := by
  simp [blizzardFetchesOf]

/-- Whatever its outcome, processing one character performs exactly one
Blizzard fetch, with that character's realm and name. -/
theorem updateCharacter_fetches (env : CharEnv) (discordChannelID : String)
    (c : Character) :
    blizzardFetchesOf (updateCharacter env discordChannelID c).2 = [(c.realm, c.name)] := by
  rcases env with ⟨bz, rio, upd, snd⟩
  rcases bz with e | p
  · simp [updateCharacter, blizzardFetchesOf]
  · by_cases hrat : p.currentMythicRating.rating = c.overallScore
    · simp [updateCharacter, hrat, blizzardFetchesOf]
    · rcases rio with e | rc
      · simp [updateCharacter, hrat, blizzardFetchesOf]
      · rcases upd with e | u
        · simp [updateCharacter, hrat, blizzardFetchesOf]
        · rcases snd with e | s <;> simp [updateCharacter, hrat, blizzardFetchesOf]

/-- The pass loop visits every listed character in order, regardless of
per-character outcomes. -/
theorem update_fetches_foldl (penv : PassEnv) (discordChannelID : String) :
    ∀ (characters : List Character) (acc : List Event),
      blizzardFetchesOf (characters.foldl (updateStep penv discordChannelID) acc) =
        blizzardFetchesOf acc ++ characters.map (fun c => (c.realm, c.name)) := by
  intro characters
  induction characters with
  | nil => intro acc; simp
  | cons c t ih =>
      intro acc
      rw [List.foldl_cons, ih]
      simp only [updateStep]
      cases h : (updateCharacter (penv.charEnv c) discordChannelID c).1 <;>
        simp [h, blizzardFetchesOf_append, updateCharacter_fetches,
          show blizzardFetchesOf [Event.sleep] = [] from rfl]

/-- Claim C7: with any listed character set and any combination of
per-character outcomes, the pass attempts every character in
store-listing order (one Blizzard fetch each, in order) and returns
success; per-character failures never reach the pass's return value. -/
theorem c7_pass_attempts_all_and_succeeds (penv : PassEnv) (discordChannelID : String)
    (characters : List Character) (hl : penv.listResult = .ok characters) :
    (Update penv discordChannelID).1 = .ok () ∧
    blizzardFetchesOf (Update penv discordChannelID).2 =
      characters.map (fun c => (c.realm, c.name)) := by
  constructor
  · simp [Update, hl]
  · have h := update_fetches_foldl penv discordChannelID characters []
    simp [Update, hl]
    simpa [blizzardFetchesOf] using h

/-- Witness for C7: a concrete two-character pass in which the first
character's notification send fails and the second character's Blizzard
fetch fails still attempts both characters in order and succeeds. -/
theorem c7_witness :
    (Update passC7 "chan").1 = .ok () ∧
    blizzardFetchesOf (Update passC7 "chan").2 =
      [("realm2", "beta"), ("realm1", "alpha")] :=
  c7_pass_attempts_all_and_succeeds passC7 "chan" [charChanged, charUnchanged] rfl

/-- Claim C10: every record handed to the store's update call agrees with
the listed record on id, name, realm, class and both timestamps (only the
four score fields may differ), and the update statement writes only the
four score columns of the rows keyed by that name and realm, leaving
every other row and every non-score column untouched. -/
theorem c10_update_frame (env : CharEnv) (discordChannelID : String)
    (c c' : Character) (b : Bool)
    (hmem : Event.storeUpdate c' b ∈ (updateCharacter env discordChannelID c).2) :
    (c'.id = c.id ∧ c'.name = c.name ∧ c'.realm = c.realm ∧
     c'.className = c.className ∧ c'.dateCreated = c.dateCreated ∧
     c'.dateUpdated = c.dateUpdated) ∧
    (∀ table : List Character,
      (applyUpdateQuery table c').length = table.length ∧
      ∀ (i : Nat) (row row' : Character),
        table[i]? = some row → (applyUpdateQuery table c')[i]? = some row' →
        (row'.id = row.id ∧ row'.name = row.name ∧ row'.realm = row.realm ∧
         row'.className = row.className ∧ row'.dateCreated = row.dateCreated ∧
         row'.dateUpdated = row.dateUpdated) ∧
        (row.name = c.name ∧ row.realm = c.realm →
          row'.overallScore = c'.overallScore ∧ row'.tankScore = c'.tankScore ∧
          row'.dpsScore = c'.dpsScore ∧ row'.healScore = c'.healScore) ∧
        (¬(row.name = c.name ∧ row.realm = c.realm) → row' = row)) := by
  have hfields : c'.id = c.id ∧ c'.name = c.name ∧ c'.realm = c.realm ∧
      c'.className = c.className ∧ c'.dateCreated = c.dateCreated ∧
      c'.dateUpdated = c.dateUpdated := by
    rcases env with ⟨bz, rio, upd, snd⟩
    rcases bz with e | p
    · simp [updateCharacter] at hmem
    · by_cases hrat : p.currentMythicRating.rating = c.overallScore
      · simp [updateCharacter, hrat] at hmem
      · rcases rio with e | rc
        · simp [updateCharacter, hrat] at hmem
        · rcases upd with e | u
          · simp [updateCharacter, hrat] at hmem
            obtain ⟨h1, h2⟩ := hmem
            subst h1
            exact ⟨rfl, rfl, rfl, rfl, rfl, rfl⟩
          · rcases snd with e | s
            all_goals
              simp [updateCharacter, hrat] at hmem
              obtain ⟨h1, h2⟩ := hmem
              subst h1
              exact ⟨rfl, rfl, rfl, rfl, rfl, rfl⟩
  refine ⟨hfields, ?_⟩
  intro table
  refine ⟨by simp [applyUpdateQuery], ?_⟩
  intro i row row' hrow hrow'
  have hmap : (applyUpdateQuery table c')[i]? =
      Option.map (fun (row : Character) =>
        if row.name = c'.name ∧ row.realm = c'.realm then
          { row with
            overallScore := c'.overallScore
            tankScore := c'.tankScore
            dpsScore := c'.dpsScore
            healScore := c'.healScore }
        else row) table[i]? := by
    simp [applyUpdateQuery]
  rw [hmap, hrow] at hrow'
  simp only [Option.map_some', Option.some.injEq] at hrow'
  rw [hfields.2.1, hfields.2.2.1] at hrow'
  by_cases hkey : row.name = c.name ∧ row.realm = c.realm
  · rw [if_pos hkey] at hrow'
    subst hrow'
    exact ⟨⟨rfl, rfl, rfl, rfl, rfl, rfl⟩,
      fun _ => ⟨rfl, rfl, rfl, rfl⟩, fun hn => absurd hkey hn⟩
  · rw [if_neg hkey] at hrow'
    subst hrow'
    exact ⟨⟨rfl, rfl, rfl, rfl, rfl, rfl⟩,
      fun hk => absurd hk hkey, fun _ => rfl⟩

/-- Witness for C10: the record passed to the store in the concrete
send-failure pass keeps every identity field of the listed record, and
the update statement preserves the table's length. -/
theorem c10_witness :
    (mergedC2.id = charChanged.id ∧ mergedC2.name = charChanged.name ∧
     mergedC2.realm = charChanged.realm ∧ mergedC2.className = charChanged.className ∧
     mergedC2.dateCreated = charChanged.dateCreated ∧
     mergedC2.dateUpdated = charChanged.dateUpdated) ∧
    (applyUpdateQuery [charChanged, rowOther] mergedC2).length = 2 := by
  have h := c10_update_frame envSendFail "chan" charChanged mergedC2 true (by decide)
  exact ⟨h.1, (h.2 [charChanged, rowOther]).1⟩

end MPB
